import Mathlib

/-!
Shallow embedding of the AI incident response system (Go packages
`monitor`, `models`, `service`, `ai`, `memory`, `remediation`, `main`)
and proofs of the specification's claims about it.

Modelling conventions: Go strings become `String` (or `List Char` where
byte-slicing matters), machine integers become `Nat`/`Int`, wall-clock
times become `Nat`, Go maps become association lists with replace-on-insert
semantics, and `(value, error)` returns become `Except`/`Option` or an
explicit error flag.  External effects (HTTP probes, the OpenAI call, the
remediation operations on the target service) are parameters of the
functions that consume their results, so every control-flow decision of
the Go code is preserved while the outside world stays abstract.
-/

namespace IncidentAI

/-- Emission behaviour of `monitor.monitorLoop`: given the running
`previousHealthy` flag (initialised to `true` in the Go code) and the
sequence of sampled health values, produce for each sample the flag
telling whether an incident event is emitted at that sample.  The Go
loop emits precisely when `previousHealthy && !health.Healthy`, and then
sets `previousHealthy = health.Healthy`. -/
def monitorEmits : Bool → List Bool → List Bool
  | _, [] => []
  | prev, h :: rest => (prev && !h) :: monitorEmits h rest

/-- Number of maximal runs of consecutive `false` (unhealthy) samples in
a sample sequence, counted where each run ends (at the end of the list
or at an unhealthy-to-healthy boundary).  This is an independent
characterisation of "maximal unhealthy run", used to state the
rising-edge emission claim against `monitorEmits`. -/
def countFalseRuns : List Bool → Nat
  | [] => 0
  | true :: rest => countFalseRuns rest
  | [false] => 1
  | false :: true :: rest => 1 + countFalseRuns rest
  | false :: false :: rest => countFalseRuns (false :: rest)

/-- Times at which the monitor emits incident events, when the samples
are taken at `t0, t0+interval, t0+2*interval, ...`. -/
def emitTimes (t0 interval : Nat) (samples : List Bool) : List Nat :=
  (List.range samples.length).filterMap fun i =>
    if (monitorEmits true samples).getD i false then some (t0 + interval * i) else none

/-- The Go helper `hasSubstring(s, substr)`: scan `i` from `0` to
`len(s)-len(substr)` and compare the slice `s[i : i+len(substr)]` with
`substr`.  (When `len(substr) > len(s)` the Go loop bound is negative and
the loop body never runs; here the single index `0` is tested and the
comparison fails on length grounds, so the two agree extensionally.) -/
def hasSubstring (s substr : List Char) : Bool :=
  (List.range (s.length - substr.length + 1)).any fun i =>
    decide ((s.drop i).take substr.length = substr)

/-- The Go helper `contains(s, substr)` from the monitor package, with its
convoluted length / equality / take / drop / scan case split translated
verbatim (`s[:len(substr)]` is `take`, `s[len(s)-len(substr):]` is `drop`). -/
def contains (s substr : List Char) : Bool :=
  decide (substr.length ≤ s.length) && (decide (s = substr) || (decide (substr.length < s.length) &&
    (decide (s.take substr.length = substr) || decide (s.drop (s.length - substr.length) = substr) ||
      (decide (substr.length < s.length) && hasSubstring s substr))))

/-- String-level wrapper for `contains`, used by the classification rule. -/
def containsStr (s substr : String) : Bool := contains s.toList substr.toList

/-- Specification-side definition, written from claim C10's words: `substr`
occurs as a contiguous substring of `s`. -/
def isContiguousSubstring (s substr : List Char) : Prop :=
  ∃ pre post, s = pre ++ substr ++ post

/-! Data model (`models/incident.go`).  `IncidentType` and
`IncidentStatus` are Go string types, so they are modelled as `String`
with the source's named constants. -/

abbrev IncidentType := String

def ServiceDown : IncidentType := "SERVICE_DOWN"

def ConfigError : IncidentType := "CONFIG_ERROR"

def ResourceExhaustion : IncidentType := "RESOURCE_EXHAUSTION"

def DependencyFailure : IncidentType := "DEPENDENCY_FAILURE"

abbrev IncidentStatus := String

def StatusDetected : IncidentStatus := "DETECTED"

def StatusAnalyzing : IncidentStatus := "ANALYZING"

def StatusFixing : IncidentStatus := "FIXING"

def StatusResolved : IncidentStatus := "RESOLVED"

def StatusFailed : IncidentStatus := "FAILED"

/-- `models.Resolution`. -/
structure Resolution where
  fixType : String
  description : String
  steps : List String
  code : String
  success : Bool
  deriving DecidableEq, Repr

/-- `models.AIResponse`.  The `confidence` float field is never read by
any control flow and is not modelled (floating point). -/
structure AIResponse where
  diagnosis : String
  fixType : String
  fixSteps : List String
  code : String
  deriving DecidableEq, Repr

/-- `models.HealthStatus` (timestamps as `Nat`). -/
structure HealthStatus where
  healthy : Bool
  timestamp : Nat
  message : String
  statusCode : Int
  deriving DecidableEq, Repr

/-- `models.Incident`. -/
structure Incident where
  id : String
  type : IncidentType
  status : IncidentStatus
  detectedAt : Nat
  resolvedAt : Option Nat
  symptoms : List String
  logs : List String
  diagnosis : String
  resolution : Option Resolution
  usedCachedFix : Bool
  deriving DecidableEq, Repr

/-- A dynamically typed JSON value as probed by the monitor's
classification code: the Go code only ever distinguishes "is a string
(with this content)" from "is something else". -/
inductive JVal where
  | str : String → JVal
  | other : JVal
  deriving DecidableEq, Repr

/-- Association-list lookup (Go map read). -/
def lookupAssoc {β : Type} (m : List (String × β)) (k : String) : Option β :=
  match m with
  | [] => none
  | (k', v) :: rest => if k' = k then some v else lookupAssoc rest k

/-- Association-list insert with replace-on-existing-key (Go map write). -/
def insertAssoc {β : Type} (m : List (String × β)) (k : String) (v : β) : List (String × β) :=
  match m with
  | [] => [(k, v)]
  | (k', v') :: rest => if k' = k then (k, v) :: rest else (k', v') :: insertAssoc rest k v

/-- The status snapshot returned by the workload's status endpoint, as
consumed by `analyzeSymptoms` and `fetchLogs`: the `config` object (if
present as an object), the `running` flag (if present as a bool) and the
`recent_logs` array (if present as an array). -/
structure Snapshot where
  config : Option (List (String × JVal))
  running : Option Bool
  recentLogs : Option (List JVal)
  deriving Repr

/-- The configuration checks at the top of `monitor.analyzeSymptoms`,
with Go's early returns flattened into an `Option` result: `some` means
the corresponding rule fired (with the symptom string it appends),
`none` means control falls through past the config section. -/
def configCheck (config : List (String × JVal)) : Option (IncidentType × String) :=
  let timeoutCheck : Option (IncidentType × String) :=
    match lookupAssoc config "timeout" with
    | some (JVal.str s) =>
        if s = "not-a-number" then some (ConfigError, "Invalid timeout configuration detected")
        else none
    | _ => none
  match lookupAssoc config "database_url" with
  | some (JVal.str s) =>
      if s = "invalid::url::format" || s = "" then
        some (ConfigError, "Invalid database URL configuration detected")
      else if s = "unreachable-host:9999" then
        some (DependencyFailure, "Database host unreachable")
      else timeoutCheck
  | _ => timeoutCheck

/-- The resource-keyword scan of `monitor.analyzeSymptoms` over the
`recent_logs` entries (non-string entries are skipped). -/
def logsCheck (logs : List JVal) : Bool :=
  logs.any fun e =>
    match e with
    | JVal.str s => containsStr s "resource" || containsStr s "port blocked" || containsStr s "memory"
    | JVal.other => false

/-- The tail of `monitor.analyzeSymptoms` after the config section: the
not-running rule, the resource-keyword rule, and the default. -/
def analyzeRest (st : Snapshot) (symptoms : List String) : IncidentType × List String :=
  match st.running with
  | some false => (ServiceDown, symptoms ++ ["Service process not running"])
  | _ =>
      match st.recentLogs with
      | some logs =>
          if logs.length > 0 && logsCheck logs then
            (ResourceExhaustion, symptoms ++ ["Resource exhaustion detected in logs"])
          else (ServiceDown, symptoms ++ ["Service health check failing"])
      | none => (ServiceDown, symptoms ++ ["Service health check failing"])

/-- `monitor.analyzeSymptoms`: classify an incident from the health
sample and the status snapshot, accumulating symptom strings exactly as
the Go code appends them. -/
def analyzeSymptoms (health : HealthStatus) (st : Snapshot) : IncidentType × List String :=
  let symptoms := ["Health check returned status code: " ++ toString health.statusCode,
                   health.message]
  match st.config with
  | some config =>
      match configCheck config with
      | some (t, sym) => (t, symptoms ++ [sym])
      | none => analyzeRest st symptoms
  | none => analyzeRest st symptoms

/-- `monitor.fetchLogs`: the string entries of `recent_logs`. -/
def fetchLogs (st : Snapshot) : List String :=
  match st.recentLogs with
  | some logs => logs.filterMap fun v => match v with | JVal.str s => some s | JVal.other => none
  | none => []

/-- `monitor.createIncident`: a fresh incident starts in `StatusDetected`
with no resolution and `usedCachedFix = false` (`idStr` stands for the
generated UUID, `now` for `time.Now()`). -/
def createIncident (idStr : String) (health : HealthStatus) (st : Snapshot) (now : Nat) : Incident :=
  let res := analyzeSymptoms health st
  { id := idStr
    type := res.1
    status := StatusDetected
    detectedAt := now
    resolvedAt := none
    symptoms := res.2
    logs := fetchLogs st
    diagnosis := ""
    resolution := none
    usedCachedFix := false }

/-! The AI analyzer (`ai/analyzer.go`).  The OpenAI transport and JSON
decoding are external; the validation section of `parseResponse` and the
rule-based fallback `GetQuickAnalysis` are modelled in full. -/

/-- The allowed fix kinds (`validFixTypes` map in `parseResponse`). -/
def validFixType (t : String) : Bool := t = "restart" || t = "config" || t = "code"

/-- Validation section of `ai.parseResponse`, applied to an already
decoded `AIResponse` (a transport or JSON-decode failure is represented
upstream as the absence of a decoded response). -/
def parseResponse (r : AIResponse) : Except String AIResponse :=
  if r.diagnosis = "" then Except.error "missing diagnosis in AI response"
  else if r.fixType = "" then Except.error "missing fix_type in AI response"
  else if !validFixType r.fixType then Except.error ("invalid fix_type: " ++ r.fixType)
  else if r.fixSteps.length = 0 then Except.error "missing fix_steps in AI response"
  else Except.ok r

/-- `ai.AnalyzeIncident` outcome: `raw` is the decoded OpenAI response if
the API call and JSON decode succeeded (`none` = API error, empty choices
or undecodable payload); the result is `none` exactly when
`AnalyzeIncident` returns an error to the orchestrator. -/
def analyzeIncident (raw : Option AIResponse) : Option AIResponse :=
  raw.bind fun r => (parseResponse r).toOption

/-- `ai.GetQuickAnalysis`: the deterministic rule-based fallback plan,
keyed by the incident's type, with a default branch for unknown types. -/
def getQuickAnalysis (incident : Incident) : AIResponse :=
  if incident.type = ServiceDown then
    { diagnosis := "Service process has crashed or stopped responding"
      fixType := "restart"
      fixSteps := ["Stop the service if it\x27s still partially running",
                   "Restart the service process",
                   "Verify health check passes"]
      code := "" }
  else if incident.type = ConfigError then
    { diagnosis := "Configuration file contains invalid values"
      fixType := "config"
      fixSteps := ["Restore database_url to \x27localhost:5432\x27",
                   "Reset timeout to \x2730s\x27",
                   "Restart service to apply changes"]
      code := "" }
  else if incident.type = DependencyFailure then
    { diagnosis := "External dependency (database) is unreachable"
      fixType := "config"
      fixSteps := ["Update database_url to valid host",
                   "Verify database is running",
                   "Restart service to reconnect"]
      code := "" }
  else if incident.type = ResourceExhaustion then
    { diagnosis := "System resources exhausted (port blocked or memory full)"
      fixType := "restart"
      fixSteps := ["Stop the service",
                   "Clear any blocked resources",
                   "Restart service on clean port"]
      code := "" }
  else
    { diagnosis := "Unknown incident type"
      fixType := "restart"
      fixSteps := ["Attempt service restart",
                   "Monitor logs for errors"]
      code := "" }

/-! The memory store (`memory/store.go`).  Disk persistence (`save`,
`Load`) is external; the in-memory maps and their update rules are
modelled in full. -/

/-- `memory.Store`: the incident map (keyed by id) and the learned-fix
map (keyed by incident type). -/
structure Store where
  incidents : List (String × Incident)
  fixes : List (String × Resolution)
  deriving Repr

/-- `memory.Store.StoreIncident`: record the incident under its id and,
when it is resolved with a successful resolution, learn the fix for its
type (replacing any previous entry for that type). -/
def storeIncident (s : Store) (incident : Incident) : Store :=
  let s1 : Store := { s with incidents := insertAssoc s.incidents incident.id incident }
  match incident.resolution with
  | some r =>
      if incident.status = StatusResolved && r.success then
        { s1 with fixes := insertAssoc s1.fixes incident.type r }
      else s1
  | none => s1

/-- `memory.Store.GetLearnedFix`. -/
def getLearnedFix (s : Store) (t : IncidentType) : Option Resolution :=
  lookupAssoc s.fixes t

/-- `memory.Store.UpdateIncidentStatus`: update the status of a stored
incident (missing id is an error and leaves the store unchanged); sets
`resolvedAt` when moving to `StatusResolved`. -/
def updateIncidentStatus (s : Store) (id : String) (status : IncidentStatus) (now : Nat) : Store :=
  match lookupAssoc s.incidents id with
  | none => s
  | some incident =>
      let incident' := { incident with
        status := status
        resolvedAt := if status = StatusResolved then some now else incident.resolvedAt }
      { s with incidents := insertAssoc s.incidents id incident' }

/-! The remediation executor (`remediation/executor.go`).  The concrete
service operations (stop/start/restart, config writes) are external;
`opOk` abstracts whether the dispatched operation chain succeeded. -/

/-- `remediation.Executor.ExecuteFix`: build the `Resolution` from the
plan, dispatch on its fix type (an unknown fix type is an immediate
error), and set `success` from the operation outcome.  Returns the
resolution together with the error flag, as in Go. -/
def executeFix (resp : AIResponse) (opOk : Bool) : Resolution × Bool :=
  let res : Resolution :=
    { fixType := resp.fixType
      description := resp.diagnosis
      steps := resp.fixSteps
      code := resp.code
      success := false }
  if !validFixType resp.fixType then (res, true)
  else if opOk then ({ res with success := true }, false)
  else (res, true)

/-! The orchestrator (`main.go`). -/

/-- Environment of one `processIncident` run: the outcomes of every
external interaction it performs, in program order. -/
structure ProcEnv where
  /-- value of the `useAI` flag. -/
  useAI : Bool
  /-- decoded OpenAI response, if transport and JSON decode succeed. -/
  aiRaw : Option AIResponse
  /-- whether `executor.ApplyCachedFix` returns without error. -/
  applyCachedFixOk : Bool
  /-- outcome of `verifyResolution` after a cached fix. -/
  verifyCached : Bool
  /-- whether the operations dispatched by `ExecuteFix` succeed. -/
  execOk : Bool
  /-- outcome of `verifyResolution` after `ExecuteFix`. -/
  verifyFinal : Bool
  /-- value used for `time.Now()` when stamping `resolvedAt`. -/
  now : Nat
  deriving Repr

/-- Observable trace of one `processIncident` run. -/
structure ProcTrace where
  /-- the incident's status at entry followed by every status assigned
  to it during processing, in order. -/
  statusHistory : List IncidentStatus
  /-- whether `analyzer.AnalyzeIncident` (the Diagnosis Source) was called. -/
  aiCalled : Bool
  /-- the plan handed to `ExecuteFix`, if the diagnosis path ran. -/
  usedPlan : Option AIResponse
  deriving Repr

/-- Plan selection of the diagnosis path in `main.processIncident`:
call the Diagnosis Source when `useAI` is set, falling back to the
rule-based `getQuickAnalysis` when the call fails or its response is
rejected; with `useAI` unset, use `getQuickAnalysis` directly. -/
def choosePlan (env : ProcEnv) (inc : Incident) : AIResponse :=
  if env.useAI then
    match analyzeIncident env.aiRaw with
    | some r => r
    | none => getQuickAnalysis inc
  else getQuickAnalysis inc

/-- Diagnosis path of `main.processIncident` (everything after the
cached-fix block): status `Analyzing`, Diagnosis Source call with
rule-based fallback, status `Fixing`, `ExecuteFix`, stabilisation wait,
final verification, terminal status. -/
def diagnosisPath (env : ProcEnv) (store1 : Store) (inc1 : Incident) (hist : List IncidentStatus) :
    Incident × Store × ProcTrace :=
  let inc2 := { inc1 with status := StatusAnalyzing }
  let store2 := updateIncidentStatus store1 inc2.id StatusAnalyzing env.now
  let aiCalled := env.useAI
  let plan := choosePlan env inc2
  let inc3 := { inc2 with diagnosis := plan.diagnosis }
  let inc4 := { inc3 with status := StatusFixing }
  let store3 := updateIncidentStatus store2 inc4.id StatusFixing env.now
  let fixRes := executeFix plan env.execOk
  if fixRes.2 then
    let inc5 := { inc4 with status := StatusFailed }
    let store4 := storeIncident store3 inc5
    (inc5, store4, ⟨hist ++ [StatusAnalyzing, StatusFixing, StatusFailed], aiCalled, some plan⟩)
  else
    let inc5 := { inc4 with resolution := some fixRes.1 }
    if env.verifyFinal then
      let inc6 := { inc5 with status := StatusResolved, resolvedAt := some env.now }
      let store4 := storeIncident store3 inc6
      (inc6, store4, ⟨hist ++ [StatusAnalyzing, StatusFixing, StatusResolved], aiCalled, some plan⟩)
    else
      let inc6 := { inc5 with status := StatusFailed }
      let store4 := storeIncident store3 inc6
      (inc6, store4, ⟨hist ++ [StatusAnalyzing, StatusFixing, StatusFailed], aiCalled, some plan⟩)

/-- `main.processIncident`: persist the incident, try the cached-fix
path (setting `usedCachedFix`), and otherwise run the diagnosis path.
Returns the incident's final state, the final store, and the trace. -/
def processIncident (env : ProcEnv) (store0 : Store) (incident0 : Incident) :
    Incident × Store × ProcTrace :=
  let store1 := storeIncident store0 incident0
  let hist := [incident0.status]
  match getLearnedFix store1 incident0.type with
  | some cachedFix =>
      let inc1 := { incident0 with usedCachedFix := true }
      if env.applyCachedFixOk && env.verifyCached then
        let inc2 := { inc1 with
          status := StatusResolved
          resolvedAt := some env.now
          resolution := some cachedFix }
        let store2 := storeIncident store1 inc2
        (inc2, store2, ⟨hist ++ [StatusResolved], false, none⟩)
      else diagnosisPath env store1 inc1 hist
  | none => diagnosisPath env store1 incident0 hist

/-- Probe loop of `main.verifyResolution`: `i` is the Go loop counter,
`fuel` the remaining iterations (`3 - i`).  Returns the overall result
together with the list of probe indices actually executed. -/
def verifyAux (probe : Nat → Bool) : Nat → Nat → Bool × List Nat
  | _, 0 => (true, [])
  | i, n + 1 =>
      if probe i then
        let r := verifyAux probe (i + 1) n
        (r.1, i :: r.2)
      else (false, [i])

/-- `main.verifyResolution`: three sequential health probes, stopping at
the first failure; `probe i` is the outcome of the `i`-th health check. -/
def verifyResolution (probe : Nat → Bool) : Bool × List Nat :=
  verifyAux probe 0 3

/-! Helper lemmas. -/

/-- A list beginning with an unhealthy sample contains at least one
maximal unhealthy run. -/
theorem countFalseRuns_pos (t : List Bool) : 1 ≤ countFalseRuns (false :: t) := by
  induction t with
  | nil => simp [countFalseRuns]
  | cons b r ih =>
      cases b
      · simpa [countFalseRuns] using ih
      · simp [countFalseRuns]

/-- Counting emissions of the monitor loop: with the initial
`previousHealthy = true` state the count equals the number of maximal
unhealthy runs; with `previousHealthy = false` a run already in progress
at the start is not counted. -/
theorem monitorCount_eq (s : List Bool) :
    (monitorEmits true s).count true = countFalseRuns s ∧
      (monitorEmits false s).count true =
        countFalseRuns s - (if s.head? = some false then 1 else 0) := by
  induction s with
  | nil => simp [monitorEmits, countFalseRuns]
  | cons h t ih =>
      obtain ⟨ih1, ih2⟩ := ih
      cases h
      · rcases t with _ | ⟨b, r⟩
        · simp [monitorEmits, countFalseRuns]
        · cases b
          · have hpos := countFalseRuns_pos r
            simp [monitorEmits, countFalseRuns, List.count_cons] at ih1 ih2 ⊢
            omega
          · simp [monitorEmits, countFalseRuns, List.count_cons] at ih1 ih2 ⊢
            omega
      · constructor
        · simpa [monitorEmits, countFalseRuns, List.count_cons] using ih1
        · simpa [monitorEmits, countFalseRuns, List.count_cons] using ih1

/-- Pointwise characterisation of the monitor's emission flags: sample
`i` emits exactly when it is unhealthy and the previous sample (or the
initial state, for `i = 0`) was healthy. -/
theorem monitorEmits_getD (prev : Bool) (s : List Bool) (i : Nat) (hi : i < s.length) :
    (monitorEmits prev s).getD i false =
      ((if i = 0 then prev else s.getD (i - 1) false) && !(s.getD i false)) := by
  induction s generalizing prev i with
  | nil => simp at hi
  | cons h t ih =>
      cases i with
      | zero => simp [monitorEmits]
      | succ j =>
          have hj : j < t.length := by simpa using hi
          have hrec := ih h j hj
          cases j with
          | zero => simpa [monitorEmits] using hrec
          | succ k => simpa [monitorEmits] using hrec

/-- Claim C1: for every sequence of health samples processed by the
monitor loop, exactly one incident event is emitted per maximal run of
consecutive unhealthy samples (the emission count equals the number of
maximal unhealthy runs), and an event is emitted at a sample exactly on
a healthy-to-unhealthy transition — in particular never on a recovery
(healthy) sample. -/
theorem claim_C1 (samples : List Bool) :
    (monitorEmits true samples).count true = countFalseRuns samples ∧
      ∀ i, i < samples.length →
        (monitorEmits true samples).getD i false =
          ((decide (i = 0) || samples.getD (i - 1) false) && !(samples.getD i false)) := by
  refine ⟨(monitorCount_eq samples).1, ?_⟩
  intro i hi
  have hrec := monitorEmits_getD true samples i hi
  by_cases h0 : i = 0
  · subst h0; simpa using hrec
  · simp only [h0, if_false, decide_eq_true_eq] at hrec ⊢
    simpa [h0] using hrec

/-- Witness for claim C1 at the concrete sample sequence
`unhealthy, healthy, unhealthy`. -/
theorem claim_C1_witness :
    (monitorEmits true [false, true, false]).count true = countFalseRuns [false, true, false] ∧
      (monitorEmits true [false, true, false]).getD 2 false =
        ((decide ((2 : Nat) = 0) || [false, true, false].getD 1 false) &&
          !([false, true, false].getD 2 false)) :=
  ⟨(claim_C1 [false, true, false]).1, (claim_C1 [false, true, false]).2 2 (by decide)⟩

/-- Counterexample to claim C2: on the sample sequence
`unhealthy, healthy, unhealthy` the monitor emits two incident events,
not exactly one. -/
theorem claim_C2_counterexample :
    ¬ ((monitorEmits true [false, true, false]).count true = 1) := by decide

/-- Claim C2 (amended): when the monitor observes samples `unhealthy,
healthy, unhealthy` at `t = 0, 3, 6` (interval 3), exactly two incident
events are emitted, at `t = 0` and `t = 6` — the monitor starts with
`previousHealthy = true`, so the unhealthy sample at `t = 0` is itself a
rising edge. -/
theorem claim_C2 :
    (monitorEmits true [false, true, false]).count true = 2 ∧
      emitTimes 0 3 [false, true, false] = [0, 6] := by decide

/-- Counterexample to claim C3: a status snapshot whose configuration
object is present but lacks the dependency-URL (`database_url`) field is
classified `ServiceDown` by `analyzeSymptoms`, not `ConfigError`. -/
theorem claim_C3_counterexample :
    (analyzeSymptoms ⟨false, 0, "m", 0⟩ ⟨some [], some true, some []⟩).1 = ServiceDown ∧
      ¬ ((analyzeSymptoms ⟨false, 0, "m", 0⟩ ⟨some [], some true, some []⟩).1 = ConfigError) := by
  constructor
  · rfl
  · decide

/-- Claim C3 (amended): for every status snapshot whose dependency-URL
configuration field is present as a string and is empty or equal to the
malformed sentinel `invalid::url::format`, the classification procedure
assigns `ConfigError`, with highest precedence — before the
dependency-failure, timeout, not-running and resource-keyword rules
(the `running` and `recentLogs` parts of the snapshot are arbitrary
here).  An absent dependency-URL field does not trigger this rule. -/
theorem claim_C3 (health : HealthStatus) (config : List (String × JVal))
    (running : Option Bool) (logs : Option (List JVal)) (s : String)
    (hdb : lookupAssoc config "database_url" = some (JVal.str s))
    (hbad : s = "invalid::url::format" ∨ s = "") :
    (analyzeSymptoms health ⟨some config, running, logs⟩).1 = ConfigError := by
  have hcc : configCheck config =
      some (ConfigError, "Invalid database URL configuration detected") := by
    unfold configCheck
    rw [hdb]
    rcases hbad with h | h <;> subst h <;> simp
  simp [analyzeSymptoms, hcc]

/-- Witness for claim C3 at a concrete snapshot carrying the malformed
sentinel, together with both a not-running flag and resource keywords in
the logs (showing the precedence). -/
theorem claim_C3_witness :
    (analyzeSymptoms ⟨false, 0, "m", 503⟩
        ⟨some [("database_url", JVal.str "invalid::url::format")], some false,
          some [JVal.str "resource exhausted"]⟩).1 = ConfigError :=
  claim_C3 ⟨false, 0, "m", 503⟩ [("database_url", JVal.str "invalid::url::format")]
    (some false) (some [JVal.str "resource exhausted"]) "invalid::url::format"
    (by decide) (Or.inl rfl)

/-- Claim C5: the verification loop runs at most 3 sequential health
probes, returns success exactly when all 3 probes pass, and on the first
failing probe (all earlier probes passing) returns failure immediately,
having executed exactly the probes up to and including the failing one. -/
theorem claim_C5 (probe : Nat → Bool) :
    (verifyResolution probe).2.length ≤ 3 ∧
      ((verifyResolution probe).1 = true ↔
        (probe 0 = true ∧ probe 1 = true ∧ probe 2 = true)) ∧
      ∀ i, i < 3 → probe i = false → (∀ j, j < i → probe j = true) →
        verifyResolution probe = (false, List.range (i + 1)) := by
  refine ⟨?_, ?_, ?_⟩
  · rcases h0 : probe 0 <;> rcases h1 : probe 1 <;> rcases h2 : probe 2 <;>
      simp [verifyResolution, verifyAux, h0, h1, h2]
  · rcases h0 : probe 0 <;> rcases h1 : probe 1 <;> rcases h2 : probe 2 <;>
      simp [verifyResolution, verifyAux, h0, h1, h2]
  · intro i hi hfail hprev
    interval_cases i
    · simp [verifyResolution, verifyAux, hfail, List.range_succ]
    · have h0 := hprev 0 (by omega)
      simp [verifyResolution, verifyAux, h0, hfail, List.range_succ]
    · have h0 := hprev 0 (by omega)
      have h1 := hprev 1 (by omega)
      simp [verifyResolution, verifyAux, h0, h1, hfail, List.range_succ]

/-- Witness for claim C5 with a probe that fails on its second check:
exactly the probes 0 and 1 are executed. -/
theorem claim_C5_witness :
    verifyResolution (fun n => decide (n ≠ 1)) = (false, List.range 2) :=
  (claim_C5 (fun n => decide (n ≠ 1))).2.2 1 (by decide) (by decide)
    (fun j hj => by
      have hj0 : j = 0 := by omega
      subst hj0; decide)

/-- Lookup after an insert: the inserted key maps to the new value,
every other key is unchanged. -/
theorem lookupAssoc_insertAssoc {β : Type} (m : List (String × β)) (k t : String) (v : β) :
    lookupAssoc (insertAssoc m k v) t = if k = t then some v else lookupAssoc m t := by
  induction m with
  | nil => simp [insertAssoc, lookupAssoc]
  | cons p rest ih =>
      obtain ⟨k', v'⟩ := p
      by_cases hk : k' = k
      · subst hk
        by_cases ht : k' = t <;> simp [insertAssoc, lookupAssoc, ht]
      · by_cases ht : k' = t
        · subst ht
          rw [insertAssoc, if_neg hk, lookupAssoc, if_pos rfl, lookupAssoc, if_pos rfl,
            if_neg (fun h => hk h.symm)]
        · simp [insertAssoc, lookupAssoc, hk, ht, ih]

/-- Inserting never invents an unrelated key: a successful lookup after
an insert was either already successful or is at the inserted key. -/
theorem lookupAssoc_isSome_insertAssoc {β : Type} (m : List (String × β)) (k t : String) (v : β)
    (h : (lookupAssoc (insertAssoc m k v) t).isSome = true) :
    (lookupAssoc m t).isSome = true ∨ t = k := by
  rw [lookupAssoc_insertAssoc] at h
  by_cases hk : k = t
  · exact Or.inr hk.symm
  · rw [if_neg hk] at h
    exact Or.inl h

/-- Lookup failure means the key is absent. -/
theorem lookupAssoc_eq_none_iff {β : Type} (m : List (String × β)) (k : String) :
    lookupAssoc m k = none ↔ k ∉ m.map Prod.fst := by
  induction m with
  | nil => simp [lookupAssoc]
  | cons p rest ih =>
      obtain ⟨k', v'⟩ := p
      by_cases hk : k' = k
      · subst hk
        simp only [lookupAssoc, if_pos rfl, List.map_cons, List.mem_cons]
        simp
      · simp only [lookupAssoc, if_neg hk, List.map_cons, List.mem_cons, ih]
        constructor
        · rintro hnot (h | h)
          · exact hk h.symm
          · exact hnot h
        · intro hnot h
          exact hnot (Or.inr h)

/-- The key list after an insert: unchanged when the key was present,
extended by the key when it was absent. -/
theorem keys_insertAssoc {β : Type} (m : List (String × β)) (k : String) (v : β) :
    (insertAssoc m k v).map Prod.fst =
      if (lookupAssoc m k).isSome then m.map Prod.fst else m.map Prod.fst ++ [k] := by
  induction m with
  | nil => simp [insertAssoc, lookupAssoc]
  | cons p rest ih =>
      obtain ⟨k', v'⟩ := p
      by_cases hk : k' = k
      · subst hk
        simp [insertAssoc, lookupAssoc]
      · simp only [insertAssoc, if_neg hk, lookupAssoc, List.map_cons, ih]
        by_cases hl : (lookupAssoc rest k).isSome <;> simp [hl]

/-- Insert-with-replace preserves key uniqueness (the map never gains a
duplicate key). -/
theorem nodup_keys_insertAssoc {β : Type} (m : List (String × β)) (k : String) (v : β)
    (h : (m.map Prod.fst).Nodup) : ((insertAssoc m k v).map Prod.fst).Nodup := by
  rw [keys_insertAssoc]
  rcases hl : lookupAssoc m k with _ | w
  · have hk : k ∉ m.map Prod.fst := (lookupAssoc_eq_none_iff m k).1 hl
    simp only [hl, Option.isSome_none, Bool.false_eq_true, if_false]
    rw [List.nodup_append]
    refine ⟨h, List.nodup_singleton k, ?_⟩
    intro a ha hb
    simp only [List.mem_singleton] at hb
    subst hb
    exact hk ha
  · simpa [hl] using h

/-- In `updateIncidentStatus` no incident record is created: every id
present afterwards was present before. -/
theorem updateIncidentStatus_keys (s : Store) (id : String) (status : IncidentStatus)
    (now : Nat) (k : String)
    (h : (lookupAssoc (updateIncidentStatus s id status now).incidents k).isSome = true) :
    (lookupAssoc s.incidents k).isSome = true := by
  unfold updateIncidentStatus at h
  rcases hl : lookupAssoc s.incidents id with _ | inc
  · rwa [hl] at h
  · rw [hl] at h
    simp only at h
    rcases lookupAssoc_isSome_insertAssoc _ _ _ _ h with h' | h'
    · exact h'
    · subst h'; simp [hl]

/-- In `storeIncident` the only incident id possibly added is the stored
incident's own id. -/
theorem storeIncident_keys (s : Store) (inc : Incident) (k : String)
    (h : (lookupAssoc (storeIncident s inc).incidents k).isSome = true) :
    (lookupAssoc s.incidents k).isSome = true ∨ k = inc.id := by
  unfold storeIncident at h
  rcases hres : inc.resolution with _ | r <;> rw [hres] at h
  · exact lookupAssoc_isSome_insertAssoc _ _ _ _ h
  · by_cases hc : (decide (inc.status = StatusResolved) && r.success) = true <;>
      simp only [hc, if_true, if_false, Bool.false_eq_true] at h <;>
      exact lookupAssoc_isSome_insertAssoc _ _ _ _ h

/-- The fixes table of `storeIncident`: updated (at the incident's type,
with its resolution) exactly when the incident is resolved with a
successful resolution, untouched otherwise. -/
theorem storeIncident_fixes (s : Store) (inc : Incident) :
    (storeIncident s inc).fixes =
      match inc.resolution with
      | some r =>
          if inc.status = StatusResolved ∧ r.success = true then insertAssoc s.fixes inc.type r
          else s.fixes
      | none => s.fixes := by
  unfold storeIncident
  rcases hres : inc.resolution with _ | r
  · rfl
  · by_cases hst : inc.status = StatusResolved <;> by_cases hsc : r.success = true <;>
      simp [hst, hsc]

/-- The incidents table of `storeIncident` is always the insert of the
incident under its id. -/
theorem storeIncident_incidents (s : Store) (inc : Incident) :
    (storeIncident s inc).incidents = insertAssoc s.incidents inc.id inc := by
  unfold storeIncident
  rcases inc.resolution with _ | r
  · rfl
  · by_cases hc : (decide (inc.status = StatusResolved) && r.success) = true <;> simp [hc]

/-- Rank of a status in the lifecycle order
`Detected → Analyzing → Fixing → (Resolved | Failed)`. -/
def statusRank (s : IncidentStatus) : Nat :=
  if s = StatusDetected then 0
  else if s = StatusAnalyzing then 1
  else if s = StatusFixing then 2
  else 3

/-- A status history only ever moves strictly forward in the lifecycle
order (no regression, no repetition). -/
def strictlyForward : List IncidentStatus → Bool
  | [] => true
  | [_] => true
  | a :: b :: rest => decide (statusRank a < statusRank b) && strictlyForward (b :: rest)

/-- A terminal status (`Resolved` or `Failed`) appears only as the last
entry of a status history: no assignment follows it. -/
def terminalOnlyAtEnd : List IncidentStatus → Bool
  | [] => true
  | [_] => true
  | a :: b :: rest =>
      !(decide (a = StatusResolved) || decide (a = StatusFailed)) && terminalOnlyAtEnd (b :: rest)

/-- `getQuickAnalysis` reads only the incident's type, so a status
change does not affect it. -/
theorem getQuickAnalysis_status (inc : Incident) (st : IncidentStatus) :
    getQuickAnalysis { inc with status := st } = getQuickAnalysis inc := rfl

/-- Structural facts about the diagnosis path: the incident's id and
`usedCachedFix` flag are preserved, the Diagnosis Source is called
exactly when `useAI` is set, the status history gains
`Analyzing, Fixing` and then a terminal status, `Resolved` is reached
only when the final verification passed, and the executed plan is the
chosen plan. -/
theorem diagnosisPath_parts (env : ProcEnv) (store1 : Store) (inc1 : Incident)
    (hist : List IncidentStatus) :
    (diagnosisPath env store1 inc1 hist).1.id = inc1.id ∧
      (diagnosisPath env store1 inc1 hist).1.usedCachedFix = inc1.usedCachedFix ∧
      (diagnosisPath env store1 inc1 hist).2.2.aiCalled = env.useAI ∧
      ((diagnosisPath env store1 inc1 hist).2.2.statusHistory =
          hist ++ [StatusAnalyzing, StatusFixing, StatusResolved] ∨
        (diagnosisPath env store1 inc1 hist).2.2.statusHistory =
          hist ++ [StatusAnalyzing, StatusFixing, StatusFailed]) ∧
      ((diagnosisPath env store1 inc1 hist).1.status = StatusResolved →
        env.verifyFinal = true) ∧
      (diagnosisPath env store1 inc1 hist).2.2.usedPlan =
        some (choosePlan env { inc1 with status := StatusAnalyzing }) := by
  simp only [diagnosisPath]
  repeat' split
  all_goals simp_all [StatusResolved, StatusFailed]

/-- The diagnosis path creates no incident record other than (an update
of) the processed incident itself. -/
theorem diagnosisPath_incidents_keys (env : ProcEnv) (store1 : Store) (inc1 : Incident)
    (hist : List IncidentStatus) (k : String)
    (h : (lookupAssoc ((diagnosisPath env store1 inc1 hist).2.1).incidents k).isSome = true) :
    (lookupAssoc store1.incidents k).isSome = true ∨ k = inc1.id := by
  simp only [diagnosisPath] at h
  split at h <;> try split at h
  all_goals
    rw [storeIncident_incidents] at h
  all_goals
    rcases lookupAssoc_isSome_insertAssoc _ _ _ _ h with h' | h'
  all_goals
    first
      | exact Or.inl (updateIncidentStatus_keys _ _ _ _ _ (updateIncidentStatus_keys _ _ _ _ _ h'))
      | exact Or.inr (by simpa using h')

/-- The incident state written by the successful cached-fix path. -/
def cachedResolved (inc0 : Incident) (cf : Resolution) (now : Nat) : Incident :=
  { inc0 with
      usedCachedFix := true
      status := StatusResolved
      resolvedAt := some now
      resolution := some cf }

/-- Branch structure of `processIncident`: either the cached-fix path
succeeds end to end (cache hit, application ok, verification ok) and the
run ends immediately in `Resolved` with the cached resolution attached
and no Diagnosis Source involvement, or the run continues into the
diagnosis path — with `usedCachedFix` set exactly when there was a cache
hit. -/
theorem processIncident_shape (env : ProcEnv) (store0 : Store) (inc0 : Incident) :
    (∃ cf, getLearnedFix (storeIncident store0 inc0) inc0.type = some cf ∧
        env.applyCachedFixOk = true ∧ env.verifyCached = true ∧
        processIncident env store0 inc0 =
          (cachedResolved inc0 cf env.now,
            storeIncident (storeIncident store0 inc0) (cachedResolved inc0 cf env.now),
            ⟨[inc0.status, StatusResolved], false, none⟩)) ∨
      ((getLearnedFix (storeIncident store0 inc0) inc0.type = none ∧
          processIncident env store0 inc0 =
            diagnosisPath env (storeIncident store0 inc0) inc0 [inc0.status]) ∨
        ((getLearnedFix (storeIncident store0 inc0) inc0.type).isSome = true ∧
          (env.applyCachedFixOk && env.verifyCached) = false ∧
          processIncident env store0 inc0 =
            diagnosisPath env (storeIncident store0 inc0)
              { inc0 with usedCachedFix := true } [inc0.status])) := by
  rcases hcf : getLearnedFix (storeIncident store0 inc0) inc0.type with _ | cf
  · exact Or.inr (Or.inl ⟨rfl, by simp only [processIncident, hcf]⟩)
  · by_cases hav : (env.applyCachedFixOk && env.verifyCached) = true
    · left
      have hav' := hav
      rw [Bool.and_eq_true] at hav'
      refine ⟨cf, rfl, hav'.1, hav'.2, ?_⟩
      simp only [processIncident, hcf, hav, if_true]
      simp [cachedResolved]
    · right; right
      refine ⟨by simp [hcf], by simpa using hav, ?_⟩
      simp only [processIncident, hcf, hav]
      simp


/-- Validation helper: any response with an empty diagnosis, a fix kind
outside the allowed set, or an empty steps list is rejected by
`parseResponse`. -/
theorem parseResponse_rejects (r : AIResponse)
    (hbad : r.diagnosis = "" ∨ validFixType r.fixType = false ∨ r.fixSteps = []) :
    (parseResponse r).toOption = none := by
  unfold parseResponse
  split_ifs <;> simp_all [validFixType, List.length_eq_zero, Except.toOption]

/-- Claim C7: a Resolution enters the fixes table only from an incident
that is `Resolved` with a successful resolution (and then as the single
entry for that incident's type, overwriting any previous one — key
uniqueness is preserved); the new verified success is what a later
lookup returns; and the orchestrator reaches `Resolved` only when one of
the two verification-loop runs passed. -/
theorem claim_C7 (store : Store) (inc : Incident) :
    ((storeIncident store inc).fixes ≠ store.fixes →
        inc.status = StatusResolved ∧ ∃ r, inc.resolution = some r ∧ r.success = true ∧
          (storeIncident store inc).fixes = insertAssoc store.fixes inc.type r) ∧
      ((store.fixes.map Prod.fst).Nodup → (((storeIncident store inc).fixes).map Prod.fst).Nodup) ∧
      (∀ r, inc.status = StatusResolved → inc.resolution = some r → r.success = true →
        lookupAssoc (storeIncident store inc).fixes inc.type = some r) ∧
      (∀ env st0, (processIncident env st0 inc).1.status = StatusResolved →
        env.verifyCached = true ∨ env.verifyFinal = true) := by
  refine ⟨?_, ?_, ?_, ?_⟩
  · intro hne
    rcases hres : inc.resolution with _ | r
    · simp only [storeIncident_fixes, hres] at hne
      exact absurd rfl hne
    · simp only [storeIncident_fixes, hres] at hne ⊢
      by_cases hc : inc.status = StatusResolved ∧ r.success = true
      · exact ⟨hc.1, r, rfl, hc.2, by rw [if_pos hc]⟩
      · rw [if_neg hc] at hne; exact absurd rfl hne
  · intro hnd
    rcases hres : inc.resolution with _ | r
    · simpa only [storeIncident_fixes, hres] using hnd
    · simp only [storeIncident_fixes, hres]
      by_cases hc : inc.status = StatusResolved ∧ r.success = true
      · rw [if_pos hc]; exact nodup_keys_insertAssoc _ _ _ hnd
      · rw [if_neg hc]; exact hnd
  · intro r hst hres hsc
    simp only [storeIncident_fixes, hres]
    rw [if_pos ⟨hst, hsc⟩, lookupAssoc_insertAssoc, if_pos rfl]
  · intro env st0 hres
    rcases processIncident_shape env st0 inc with ⟨cf, _, _, hvc, _⟩ | ⟨⟨_, heq⟩ | ⟨_, _, heq⟩⟩
    · exact Or.inl hvc
    all_goals
      right
      apply (diagnosisPath_parts env _ _ _).2.2.2.2.1
      rw [← heq]
      exact hres

/-- Claim C9: when a cached fix exists but its application or its
verification fails, the same incident record (same id, no second record
created in the store) continues through the diagnosis path in the same
run, its `usedCachedFix` flag staying `true` throughout. -/
theorem claim_C9 (env : ProcEnv) (store : Store) (inc : Incident)
    (hcf : (getLearnedFix (storeIncident store inc) inc.type).isSome = true)
    (hfail : env.applyCachedFixOk = false ∨ env.verifyCached = false) :
    (processIncident env store inc).1.id = inc.id ∧
      (processIncident env store inc).1.usedCachedFix = true ∧
      StatusAnalyzing ∈ (processIncident env store inc).2.2.statusHistory ∧
      ((processIncident env store inc).2.2.usedPlan).isSome = true ∧
      ∀ k, (lookupAssoc ((processIncident env store inc).2.1).incidents k).isSome = true →
        (lookupAssoc store.incidents k).isSome = true ∨ k = inc.id := by
  rcases processIncident_shape env store inc with ⟨cf, _, hap, hvc, _⟩ | ⟨⟨hnone, _⟩ | ⟨_, _, heq⟩⟩
  · rcases hfail with h | h
    · rw [hap] at h; cases h
    · rw [hvc] at h; cases h
  · rw [hnone] at hcf; cases hcf
  · have hp := diagnosisPath_parts env (storeIncident store inc)
      { inc with usedCachedFix := true } [inc.status]
    refine ⟨?_, ?_, ?_, ?_, ?_⟩
    · rw [heq]; simpa using hp.1
    · rw [heq]; simpa using hp.2.1
    · rw [heq]
      rcases hp.2.2.2.1 with h | h <;> rw [h] <;> simp
    · rw [heq, hp.2.2.2.2.2]; rfl
    · intro k hk
      rw [heq] at hk
      rcases diagnosisPath_incidents_keys env _ _ _ k hk with h' | h'
      · rw [storeIncident_incidents] at h'
        exact lookupAssoc_isSome_insertAssoc _ _ _ _ h'
      · exact Or.inr (by simpa using h')

/-- Claim C4 (amended): after an incident of class C is stored resolved
with a verified-successful resolution, processing the next incident of
class C finds a FixCache entry and sets `usedCachedFix = true`; it
performs no Diagnosis Source call provided the cached fix applies
successfully and passes verification (otherwise the diagnosis path runs
and, with `useAI` set, does call the Diagnosis Source). -/
theorem claim_C4 (env : ProcEnv) (store : Store) (prior inc : Incident) (r : Resolution)
    (hst : prior.status = StatusResolved) (hres : prior.resolution = some r)
    (hsucc : r.success = true) (hty : inc.type = prior.type) :
    getLearnedFix (storeIncident store prior) inc.type = some r ∧
      (processIncident env (storeIncident store prior) inc).1.usedCachedFix = true ∧
      (env.applyCachedFixOk = true → env.verifyCached = true →
        (processIncident env (storeIncident store prior) inc).2.2.aiCalled = false) := by
  have hlk : getLearnedFix (storeIncident store prior) inc.type = some r := by
    simp only [getLearnedFix, storeIncident_fixes, hres]
    rw [if_pos ⟨hst, hsucc⟩, hty, lookupAssoc_insertAssoc, if_pos rfl]
  have hlk2 : (getLearnedFix (storeIncident (storeIncident store prior) inc) inc.type).isSome
      = true := by
    rcases hr2 : inc.resolution with _ | r2
    · simp only [getLearnedFix, storeIncident_fixes, hr2, hres]
      rw [if_pos ⟨hst, hsucc⟩, hty, lookupAssoc_insertAssoc, if_pos rfl]
      rfl
    · simp only [getLearnedFix, storeIncident_fixes, hr2, hres]
      split
      · rw [lookupAssoc_insertAssoc, if_pos rfl]; rfl
      · rw [if_pos ⟨hst, hsucc⟩, hty, lookupAssoc_insertAssoc, if_pos rfl]; rfl
  refine ⟨hlk, ?_, ?_⟩ <;>
    rcases processIncident_shape env (storeIncident store prior) inc with
      ⟨cf, hcf, hap, hvc, heq⟩ | ⟨⟨hnone, _⟩ | ⟨_, hav, heq⟩⟩
  · rw [heq]; simp [cachedResolved]
  · rw [hnone] at hlk2; cases hlk2
  · rw [heq]
    simpa using (diagnosisPath_parts env _ _ _).2.1
  · intro _ _; rw [heq]
  · rw [hnone] at hlk2; cases hlk2
  · intro h1 h2
    rw [h1, h2] at hav
    cases hav


/-- Claim C6: every Diagnosis Source response with an empty diagnosis,
a missing or invalid fix kind (outside restart/config/code), or an
empty steps list is rejected by `parseResponse`, in which case the
orchestrator executes the deterministic rule-based fallback plan for
the incident; and for every incident class — including unknown ones —
the fallback returns a plan with non-empty diagnosis, an allowed fix
kind and non-empty steps (being a total function, it never fails). -/
theorem claim_C6 :
    (∀ r : AIResponse,
        r.diagnosis = "" ∨ validFixType r.fixType = false ∨ r.fixSteps = [] →
          (parseResponse r).toOption = none) ∧
      (∀ env store inc r, env.useAI = true → env.aiRaw = some r →
          (r.diagnosis = "" ∨ validFixType r.fixType = false ∨ r.fixSteps = []) →
          getLearnedFix (storeIncident store inc) inc.type = none →
          (processIncident env store inc).2.2.usedPlan = some (getQuickAnalysis inc)) ∧
      (∀ inc : Incident, (getQuickAnalysis inc).diagnosis ≠ "" ∧
          validFixType (getQuickAnalysis inc).fixType = true ∧
          (getQuickAnalysis inc).fixSteps ≠ []) := by
  refine ⟨parseResponse_rejects, ?_, ?_⟩
  · intro env store inc r hai hraw hbad hnone
    rcases processIncident_shape env store inc with ⟨cf, hcf, _, _, _⟩ | ⟨⟨_, heq⟩ | ⟨hsome, _, _⟩⟩
    · rw [hnone] at hcf; cases hcf
    · rw [heq, (diagnosisPath_parts env _ _ _).2.2.2.2.2]
      have hnoneAI : analyzeIncident env.aiRaw = none := by
        rw [hraw]
        exact parseResponse_rejects r hbad
      simp only [choosePlan, hai, if_true, hnoneAI]
      rfl
    · rw [hnone] at hsome; cases hsome
  · intro inc
    unfold getQuickAnalysis
    split_ifs <;> exact ⟨by decide, by decide, by decide⟩

/-- Witness for claim C6: a response with an empty diagnosis is
replaced by the rule-based fallback plan. -/
theorem claim_C6_witness :
    (processIncident ⟨true, some ⟨"", "restart", ["s"], ""⟩, true, true, true, true, 0⟩ ⟨[], []⟩
        ⟨"b", "SERVICE_DOWN", "DETECTED", 2, none, [], [], "", none, false⟩).2.2.usedPlan =
      some (getQuickAnalysis ⟨"b", "SERVICE_DOWN", "DETECTED", 2, none, [], [], "", none, false⟩) :=
  claim_C6.2.1 ⟨true, some ⟨"", "restart", ["s"], ""⟩, true, true, true, true, 0⟩ ⟨[], []⟩
    ⟨"b", "SERVICE_DOWN", "DETECTED", 2, none, [], [], "", none, false⟩
    ⟨"", "restart", ["s"], ""⟩ rfl rfl (Or.inl rfl) rfl

/-- Claim C8: every incident is created in status `Detected`, and over a
processing run the stream of statuses assigned to it moves strictly
forward along `Detected → Analyzing → Fixing → (Resolved | Failed)`
(stages may be skipped), never regresses, and a terminal status is
never followed by another assignment. -/
theorem claim_C8 (idStr : String) (health : HealthStatus) (snap : Snapshot) (nowT : Nat)
    (env : ProcEnv) (store : Store) (inc : Incident) (hdet : inc.status = StatusDetected) :
    (createIncident idStr health snap nowT).status = StatusDetected ∧
      (processIncident env store inc).2.2.statusHistory.head? = some StatusDetected ∧
      strictlyForward (processIncident env store inc).2.2.statusHistory = true ∧
      terminalOnlyAtEnd (processIncident env store inc).2.2.statusHistory = true := by
  have hh : (processIncident env store inc).2.2.statusHistory = [StatusDetected, StatusResolved] ∨
      (processIncident env store inc).2.2.statusHistory =
        [StatusDetected, StatusAnalyzing, StatusFixing, StatusResolved] ∨
      (processIncident env store inc).2.2.statusHistory =
        [StatusDetected, StatusAnalyzing, StatusFixing, StatusFailed] := by
    rcases processIncident_shape env store inc with ⟨cf, _, _, _, heq⟩ | ⟨⟨_, heq⟩ | ⟨_, _, heq⟩⟩
    · left; rw [heq, hdet]
    all_goals
      rw [heq]
      rcases (diagnosisPath_parts env _ _ _).2.2.2.1 with h | h
      · right; left; rw [h, hdet]; rfl
      · right; right; rw [h, hdet]; rfl
  refine ⟨rfl, ?_, ?_, ?_⟩ <;> rcases hh with h | h | h <;> rw [h] <;> decide

/-- Witness for claim C8 on a concrete cache-miss run. -/
theorem claim_C8_witness :
    (createIncident "i" ⟨false, 0, "m", 0⟩ ⟨none, none, none⟩ 0).status = StatusDetected ∧
      (processIncident ⟨false, none, true, true, true, true, 5⟩ ⟨[], []⟩
          ⟨"b", "SERVICE_DOWN", "DETECTED", 2, none, [], [], "", none, false⟩).2.2.statusHistory.head?
        = some StatusDetected ∧
      strictlyForward (processIncident ⟨false, none, true, true, true, true, 5⟩ ⟨[], []⟩
          ⟨"b", "SERVICE_DOWN", "DETECTED", 2, none, [], [], "", none, false⟩).2.2.statusHistory
        = true ∧
      terminalOnlyAtEnd (processIncident ⟨false, none, true, true, true, true, 5⟩ ⟨[], []⟩
          ⟨"b", "SERVICE_DOWN", "DETECTED", 2, none, [], [], "", none, false⟩).2.2.statusHistory
        = true :=
  claim_C8 "i" ⟨false, 0, "m", 0⟩ ⟨none, none, none⟩ 0 ⟨false, none, true, true, true, true, 5⟩
    ⟨[], []⟩ ⟨"b", "SERVICE_DOWN", "DETECTED", 2, none, [], [], "", none, false⟩ rfl

/-- Witness for claim C7: storing a resolved incident with a successful
resolution makes its fix retrievable under its type. -/
theorem claim_C7_witness :
    lookupAssoc (storeIncident ⟨[], []⟩
        ⟨"a", "SERVICE_DOWN", "RESOLVED", 0, some 1, [], [], "",
          some ⟨"restart", "d", ["s"], "", true⟩, false⟩).fixes "SERVICE_DOWN" =
      some ⟨"restart", "d", ["s"], "", true⟩ :=
  (claim_C7 ⟨[], []⟩
      ⟨"a", "SERVICE_DOWN", "RESOLVED", 0, some 1, [], [], "",
        some ⟨"restart", "d", ["s"], "", true⟩, false⟩).2.2.1
    ⟨"restart", "d", ["s"], "", true⟩ rfl rfl rfl

/-- Witness for claim C9 on a concrete run whose cached fix fails to
apply. -/
theorem claim_C9_witness :
    (processIncident ⟨false, none, false, true, true, true, 5⟩
        ⟨[], [("SERVICE_DOWN", ⟨"restart", "d", ["s"], "", true⟩)]⟩
        ⟨"b", "SERVICE_DOWN", "DETECTED", 2, none, [], [], "", none, false⟩).1.id = "b" ∧
      (processIncident ⟨false, none, false, true, true, true, 5⟩
          ⟨[], [("SERVICE_DOWN", ⟨"restart", "d", ["s"], "", true⟩)]⟩
          ⟨"b", "SERVICE_DOWN", "DETECTED", 2, none, [], [], "", none, false⟩).1.usedCachedFix
        = true ∧
      StatusAnalyzing ∈ (processIncident ⟨false, none, false, true, true, true, 5⟩
          ⟨[], [("SERVICE_DOWN", ⟨"restart", "d", ["s"], "", true⟩)]⟩
          ⟨"b", "SERVICE_DOWN", "DETECTED", 2, none, [], [], "", none, false⟩).2.2.statusHistory :=
  ⟨(claim_C9 ⟨false, none, false, true, true, true, 5⟩
        ⟨[], [("SERVICE_DOWN", ⟨"restart", "d", ["s"], "", true⟩)]⟩
        ⟨"b", "SERVICE_DOWN", "DETECTED", 2, none, [], [], "", none, false⟩ rfl (Or.inl rfl)).1,
    (claim_C9 ⟨false, none, false, true, true, true, 5⟩
        ⟨[], [("SERVICE_DOWN", ⟨"restart", "d", ["s"], "", true⟩)]⟩
        ⟨"b", "SERVICE_DOWN", "DETECTED", 2, none, [], [], "", none, false⟩ rfl (Or.inl rfl)).2.1,
    (claim_C9 ⟨false, none, false, true, true, true, 5⟩
        ⟨[], [("SERVICE_DOWN", ⟨"restart", "d", ["s"], "", true⟩)]⟩
        ⟨"b", "SERVICE_DOWN", "DETECTED", 2, none, [], [], "", none, false⟩ rfl (Or.inl rfl)).2.2.1⟩

/-- Counterexample to claim C4 as stated: with a learned fix present
for the class (stored from a prior verified success) but whose
application fails, the run sets `usedCachedFix = true` and nevertheless
calls the Diagnosis Source (`aiCalled = true`), so "performs no call to
the Diagnosis Source" is false without the success proviso. -/
theorem claim_C4_counterexample :
    (getLearnedFix
        (storeIncident ⟨[], []⟩
          ⟨"a", "SERVICE_DOWN", "RESOLVED", 0, some 1, [], [], "",
            some ⟨"restart", "d", ["s"], "", true⟩, false⟩)
        "SERVICE_DOWN").isSome = true ∧
      (processIncident ⟨true, none, false, true, true, true, 5⟩
          (storeIncident ⟨[], []⟩
            ⟨"a", "SERVICE_DOWN", "RESOLVED", 0, some 1, [], [], "",
              some ⟨"restart", "d", ["s"], "", true⟩, false⟩)
          ⟨"b", "SERVICE_DOWN", "DETECTED", 2, none, [], [], "", none, false⟩).1.usedCachedFix
        = true ∧
      ¬ ((processIncident ⟨true, none, false, true, true, true, 5⟩
          (storeIncident ⟨[], []⟩
            ⟨"a", "SERVICE_DOWN", "RESOLVED", 0, some 1, [], [], "",
              some ⟨"restart", "d", ["s"], "", true⟩, false⟩)
          ⟨"b", "SERVICE_DOWN", "DETECTED", 2, none, [], [], "", none, false⟩).2.2.aiCalled
        = false) := by
  refine ⟨rfl, rfl, ?_⟩
  decide

/-- Witness for claim C4 on a concrete run whose cached fix applies and
verifies: the cache is hit, `usedCachedFix` is set, and the Diagnosis
Source is not called. -/
theorem claim_C4_witness :
    getLearnedFix
        (storeIncident ⟨[], []⟩
          ⟨"a", "SERVICE_DOWN", "RESOLVED", 0, some 1, [], [], "",
            some ⟨"restart", "d", ["s"], "", true⟩, false⟩)
        "SERVICE_DOWN" = some ⟨"restart", "d", ["s"], "", true⟩ ∧
      (processIncident ⟨true, none, true, true, true, true, 5⟩
          (storeIncident ⟨[], []⟩
            ⟨"a", "SERVICE_DOWN", "RESOLVED", 0, some 1, [], [], "",
              some ⟨"restart", "d", ["s"], "", true⟩, false⟩)
          ⟨"b", "SERVICE_DOWN", "DETECTED", 2, none, [], [], "", none, false⟩).1.usedCachedFix
        = true ∧
      (processIncident ⟨true, none, true, true, true, true, 5⟩
          (storeIncident ⟨[], []⟩
            ⟨"a", "SERVICE_DOWN", "RESOLVED", 0, some 1, [], [], "",
              some ⟨"restart", "d", ["s"], "", true⟩, false⟩)
          ⟨"b", "SERVICE_DOWN", "DETECTED", 2, none, [], [], "", none, false⟩).2.2.aiCalled
        = false :=
  ⟨(claim_C4 ⟨true, none, true, true, true, true, 5⟩ ⟨[], []⟩
      ⟨"a", "SERVICE_DOWN", "RESOLVED", 0, some 1, [], [], "",
        some ⟨"restart", "d", ["s"], "", true⟩, false⟩
      ⟨"b", "SERVICE_DOWN", "DETECTED", 2, none, [], [], "", none, false⟩
      ⟨"restart", "d", ["s"], "", true⟩ rfl rfl rfl rfl).1,
    (claim_C4 ⟨true, none, true, true, true, true, 5⟩ ⟨[], []⟩
      ⟨"a", "SERVICE_DOWN", "RESOLVED", 0, some 1, [], [], "",
        some ⟨"restart", "d", ["s"], "", true⟩, false⟩
      ⟨"b", "SERVICE_DOWN", "DETECTED", 2, none, [], [], "", none, false⟩
      ⟨"restart", "d", ["s"], "", true⟩ rfl rfl rfl rfl).2.1,
    (claim_C4 ⟨true, none, true, true, true, true, 5⟩ ⟨[], []⟩
      ⟨"a", "SERVICE_DOWN", "RESOLVED", 0, some 1, [], [], "",
        some ⟨"restart", "d", ["s"], "", true⟩, false⟩
      ⟨"b", "SERVICE_DOWN", "DETECTED", 2, none, [], [], "", none, false⟩
      ⟨"restart", "d", ["s"], "", true⟩ rfl rfl rfl rfl).2.2 rfl rfl⟩


/-- The naive scan `hasSubstring` finds exactly the contiguous
substrings. -/
theorem hasSubstring_iff (s substr : List Char) :
    hasSubstring s substr = true ↔ isContiguousSubstring s substr := by
  unfold hasSubstring isContiguousSubstring
  rw [List.any_eq_true]
  constructor
  · rintro ⟨i, hmem, hi⟩
    simp only [decide_eq_true_iff] at hi
    refine ⟨s.take i, (s.drop i).drop substr.length, ?_⟩
    have hdrop : s.drop i = substr ++ (s.drop i).drop substr.length := by
      conv_lhs => rw [← List.take_append_drop substr.length (s.drop i)]
      rw [hi]
    calc s = s.take i ++ s.drop i := (List.take_append_drop i s).symm
      _ = s.take i ++ (substr ++ (s.drop i).drop substr.length) := by rw [← hdrop]
      _ = s.take i ++ substr ++ (s.drop i).drop substr.length := by
          simp [List.append_assoc]
  · rintro ⟨pre, post, rfl⟩
    refine ⟨pre.length, ?_, ?_⟩
    · rw [List.mem_range]
      simp only [List.length_append]
      omega
    · simp only [decide_eq_true_iff]
      rw [show pre ++ substr ++ post = pre ++ (substr ++ post) by simp [List.append_assoc]]
      rw [List.drop_left, List.take_left]

/-- Claim C10: the monitor's convoluted `contains` helper agrees exactly
with contiguous-substring occurrence (the specification-side predicate
`isContiguousSubstring`, equivalently the naive scan `hasSubstring`
extended with the empty-substring and equal-length cases), so the
resource-keyword classification rule implements standard substring
matching. -/
theorem claim_C10 (s substr : List Char) :
    contains s substr = true ↔ isContiguousSubstring s substr := by
  constructor
  · intro h
    unfold contains at h
    simp only [Bool.and_eq_true, Bool.or_eq_true, decide_eq_true_iff] at h
    obtain ⟨hlen, h2⟩ := h
    rcases h2 with heq | ⟨hlt, h3⟩
    · exact ⟨[], [], by simpa using heq⟩
    · rcases h3 with (hpre | hsuf) | ⟨_, hsub⟩
      · refine ⟨[], s.drop substr.length, ?_⟩
        conv_lhs => rw [← List.take_append_drop substr.length s]
        rw [hpre]
        simp
      · refine ⟨s.take (s.length - substr.length), [], ?_⟩
        conv_lhs => rw [← List.take_append_drop (s.length - substr.length) s]
        rw [hsuf]
        simp
      · exact (hasSubstring_iff s substr).1 hsub
  · intro hsubstr
    obtain ⟨pre, post, hs⟩ := hsubstr
    have hlens : s.length = pre.length + substr.length + post.length := by
      rw [hs]
      simp only [List.length_append]
    have hlen : substr.length ≤ s.length := by omega
    unfold contains
    simp only [Bool.and_eq_true, Bool.or_eq_true, decide_eq_true_iff]
    refine ⟨hlen, ?_⟩
    by_cases heq : s = substr
    · exact Or.inl heq
    · have hlt : substr.length < s.length := by
        rcases Nat.eq_or_lt_of_le hlen with he | hl
        · exfalso
          have hpre0 : pre = [] := List.length_eq_zero.mp (by omega)
          have hpost0 : post = [] := List.length_eq_zero.mp (by omega)
          apply heq
          rw [hs, hpre0, hpost0]
          simp
        · exact hl
      refine Or.inr ⟨hlt, ?_⟩
      exact Or.inr ⟨hlt, (hasSubstring_iff s substr).2 ⟨pre, post, hs⟩⟩

end IncidentAI
